import Mathlib

/-!
Shallow embedding of the core of `mcp-webgl-visual-regression`:
the screenshot comparator (`src/screenshot/compare.ts`, `compareScreenshots`)
and the error aggregation pipeline (`ErrorAggregator` in the tools sources,
together with `sendWebGLNotification` from the server module).

Machine integers are modelled as `Nat` (8-bit channel values stay below 256 by
construction of the inputs; no arithmetic here overflows), the float
`difference` percentage is modelled exactly as `ℚ`, JavaScript `Map` is an
insertion-ordered association list, timers are booleans ("armed"), and the
wall clock (`Date.now()` / `new Date()`) is an explicit `now : Nat` parameter.
The notification transport (`server.notification`) is an explicit
`sink : Notification → Except String Unit` parameter; a `.error` result models
the transport throwing.
-/

/-! ### JavaScript character classes

`extractErrorType` uses the regexes `/WebGL.*?:\s*([A-Z_]+):\s*(\w+)/` and
`/([A-Z_]+)/`.  The character classes are modelled on code points, exactly as
ECMAScript defines them (`\s` is the WhiteSpace ∪ LineTerminator set, `.`
excludes the four line terminators, `\w` is `[A-Za-z0-9_]`). -/

/-- JavaScript regex class `[A-Z_]`. -/
def isUpperScore (c : Char) : Bool :=
  decide ((65 ≤ c.toNat ∧ c.toNat ≤ 90) ∨ c.toNat = 95)

/-- JavaScript regex class `\w`, i.e. `[A-Za-z0-9_]`. -/
def isWordChar (c : Char) : Bool :=
  decide ((65 ≤ c.toNat ∧ c.toNat ≤ 90) ∨ (97 ≤ c.toNat ∧ c.toNat ≤ 122) ∨
    (48 ≤ c.toNat ∧ c.toNat ≤ 57) ∨ c.toNat = 95)

/-- JavaScript regex class `\s` (ECMAScript WhiteSpace and LineTerminator
code points). -/
def isJsSpace (c : Char) : Bool :=
  decide (c.toNat = 32 ∨ c.toNat = 9 ∨ c.toNat = 10 ∨ c.toNat = 11 ∨ c.toNat = 12 ∨
    c.toNat = 13 ∨ c.toNat = 160 ∨ c.toNat = 5760 ∨ (8192 ≤ c.toNat ∧ c.toNat ≤ 8202) ∨
    c.toNat = 8232 ∨ c.toNat = 8233 ∨ c.toNat = 8239 ∨ c.toNat = 8287 ∨
    c.toNat = 12288 ∨ c.toNat = 65279)

/-- JavaScript line terminators, the code points `.` does not match. -/
def isLineTerm (c : Char) : Bool :=
  decide (c.toNat = 10 ∨ c.toNat = 13 ∨ c.toNat = 8232 ∨ c.toNat = 8233)

/-- Boolean test that `pat` occurs at the head of `l`. -/
def startsWithSeq : List Char → List Char → Bool
  | [], _ => true
  | _ :: _, [] => false
  | p :: ps, c :: cs => (p == c) && startsWithSeq ps cs

/-- Boolean test that `pat` occurs as a contiguous subsequence of `l`
(JavaScript `String.prototype.includes`). -/
def containsSeq (pat : List Char) : List Char → Bool
  | [] => pat.isEmpty
  | c :: rest => startsWithSeq pat (c :: rest) || containsSeq pat rest

/-- The literal `WebGL` the first regex of `extractErrorType` begins with. -/
def webglChars : List Char := ['W', 'e', 'b', 'G', 'L']

/-- Tail of the first regex after the lazy part: `\s*([A-Z_]+):\s*(\w+)`.
Greedy `\s*` / `[A-Z_]+` / `\w+` runs are `dropWhile` / `takeWhile`: the
involved classes are pairwise disjoint and `:` belongs to none of them, so
the regex engine's backtracking never shortens these runs. -/
def matchTail (l : List Char) : Option (List Char × List Char) :=
  let l1 := l.dropWhile isJsSpace
  let code := l1.takeWhile isUpperScore
  let rest1 := l1.dropWhile isUpperScore
  if code.isEmpty then none
  else
    match rest1 with
    | ':' :: r2 =>
      let r3 := r2.dropWhile isJsSpace
      let op := r3.takeWhile isWordChar
      if op.isEmpty then none
      else some (code, op)
    | _ => none

/-- The lazy `.*?:` of the first regex: try the earliest colon first, extend
the lazy run over a failed colon, and fail at a line terminator (which `.`
cannot match). -/
def scanColon : List Char → Option (List Char × List Char)
  | [] => none
  | c :: rest =>
    if c = ':' then
      match matchTail rest with
      | some r => some r
      | none => scanColon rest
    else if isLineTerm c then none
    else scanColon rest

/-- Leftmost match of `/WebGL.*?:\s*([A-Z_]+):\s*(\w+)/`, returning the two
capture groups: the earliest `WebGL` occurrence from which the rest of the
pattern completes wins. -/
def regexWebGL : List Char → Option (List Char × List Char)
  | [] => none
  | c :: rest =>
    if startsWithSeq webglChars (c :: rest) then
      match scanColon ((c :: rest).drop 5) with
      | some r => some r
      | none => regexWebGL rest
    else regexWebGL rest

/-- Leftmost match of the fallback regex `/([A-Z_]+)/`: the maximal `[A-Z_]`
run starting at the first `[A-Z_]` character. -/
def firstCapsRun : List Char → Option (List Char)
  | [] => none
  | c :: rest =>
    if isUpperScore c then some ((c :: rest).takeWhile isUpperScore)
    else firstCapsRun rest

/-- `ErrorAggregator.extractErrorType`: structured `CODE:operation` via the
`WebGL`-anchored regex, else the first `[A-Z_]+` run, else `UNKNOWN`. -/
def extractErrorType (message : String) : String :=
  match regexWebGL message.data with
  | some (code, op) => String.mk code ++ ":" ++ String.mk op
  | none =>
    match firstCapsRun message.data with
    | some run => String.mk run
    | none => "UNKNOWN"

/-! ### Screenshot comparator (`compareScreenshots`)

The sharp decode step is external: `RawImage` is the already-decoded raster
(metadata width/height/channels plus the raw interleaved buffer).  Buffer
reads out of range yield JavaScript `undefined`, and `NaN > 5` is false, so an
out-of-range channel read never marks a pixel different; this is the `none`
case of `channelDiff`. -/

structure RawImage where
  width : Nat
  height : Nat
  channels : Nat
  data : List Nat
deriving DecidableEq

structure ComparisonResult where
  isMatch : Bool
  difference : ℚ
  diffImagePath : Option String
  diffImageData : Option (List Nat)
deriving DecidableEq

/-- One channel comparison `Math.abs(baselineBuffer[i] - currentBuffer[i]) > 5`. -/
def channelDiff (b c : List Nat) (i : Nat) : Bool :=
  match b.get? i, c.get? i with
  | some x, some y => decide (5 < (if x ≤ y then y - x else x - y))
  | _, _ => false

/-- Inner channel loop: the pixel starting at byte `i` differs if any of its
`channels` channels differs by more than 5. -/
def pixelDiffAt (b c : List Nat) (channels i : Nat) : Bool :=
  (List.range channels).any (fun ch => channelDiff b c (i + ch))

/-- Byte indices visited by `for (let i = 0; i < baselineBuffer.length; i += channels)`. -/
def pixelStarts (len channels : Nat) : List Nat :=
  (List.range ((len + channels - 1) / channels)).map (fun k => k * channels)

/-- The `diffPixels` accumulator. -/
def countDiffPixels (b c : List Nat) (channels : Nat) : Nat :=
  ((pixelStarts b.length channels).filter (fun i => pixelDiffAt b c channels i)).length

/-- Final value of byte `i` of the diff buffer.  Differing pixels are painted
`255,0,0` (alpha `255` when `channels = 4`), others copy the current image;
`Buffer.alloc` zero-fill covers the remaining channels.  Writes past a pixel's
own channels are overwritten by the later iterations, so each byte is decided
by the pixel it belongs to. -/
def diffBufferByte (b c : List Nat) (channels i : Nat) : Nat :=
  let i0 := channels * (i / channels)
  if pixelDiffAt b c channels i0 then
    if i = i0 then 255
    else if i = i0 + 3 ∧ channels = 4 then 255
    else 0
  else c.getD i 0

/-- The diff image buffer (same length as the baseline buffer). -/
def diffBufferList (b c : List Nat) (channels : Nat) : List Nat :=
  (List.range b.length).map (diffBufferByte b c channels)

/-- `compareScreenshots` after decode.  `timestamp` stands for the external
`generateTimestamp()` used in the diff file name; the PNG encoding of the diff
buffer is external, so `diffImageData` carries the raw buffer. -/
def compareScreenshots (baseline current : RawImage) (threshold : ℚ)
    (timestamp : String) : ComparisonResult :=
  if baseline.width ≠ current.width ∨ baseline.height ≠ current.height then
    { isMatch := false, difference := 100, diffImagePath := none, diffImageData := none }
  else
    let totalPixels := baseline.width * baseline.height
    let channels := if baseline.channels = 0 then 3 else baseline.channels
    let diffPixels := countDiffPixels baseline.data current.data channels
    let differencePercentage : ℚ := ((diffPixels : ℚ) / (totalPixels : ℚ)) * 100
    let isMatch := decide (differencePercentage ≤ threshold)
    if isMatch then
      { isMatch := true, difference := differencePercentage,
        diffImagePath := none, diffImageData := none }
    else
      { isMatch := false, difference := differencePercentage,
        diffImagePath := some ("screenshots/diffs/diff_" ++ timestamp ++ ".png"),
        diffImageData := some (diffBufferList baseline.data current.data channels) }

/-! ### Error events (`debugger/types.ts`)

`WebGLError | ShaderCompilationError`: the runtime variant carries the message
and the required `count` field; the shader variant carries the discriminating
`type`, the optional `shaderType`, and the compiler/linker `errorLog`.  Fields
not consulted by the aggregator (ids, timestamps, urls, sources, line numbers)
are omitted. -/

inductive ShaderErrKind where
  | shader_compilation
  | program_linking
deriving DecidableEq

inductive ShaderStage where
  | vertex
  | fragment
deriving DecidableEq

inductive ErrorEvent where
  | runtime (message : String) (count : Nat)
  | shader (kind : ShaderErrKind) (shaderType : Option ShaderStage) (errorLog : String)
deriving DecidableEq

def ShaderErrKind.str : ShaderErrKind → String
  | .shader_compilation => "shader_compilation"
  | .program_linking => "program_linking"

def ShaderStage.str : ShaderStage → String
  | .vertex => "vertex"
  | .fragment => "fragment"

/-- `'count' in error ? error.count : 1`: only the runtime variant has a
`count` field. -/
def ErrorEvent.weight : ErrorEvent → Nat
  | .runtime _ n => n
  | .shader _ _ _ => 1

/-- `e.message` under the `WebGLError[]` cast of the webgl branch (shader
events never occur in a `webgl:`-keyed group, so the `""` default is
unreachable there). -/
def ErrorEvent.messageOf : ErrorEvent → String
  | .runtime m _ => m
  | .shader _ _ _ => ""

/-- `e.errorLog` under the `ShaderCompilationError[]` cast of the shader
branch (runtime events never occur in a `shader:`-keyed group). -/
def ErrorEvent.errorLogOf : ErrorEvent → String
  | .runtime _ _ => ""
  | .shader _ _ log => log

/-- `ErrorAggregator.getErrorKey`. -/
def getErrorKey : ErrorEvent → String
  | .shader kind stage _ =>
    "shader:" ++ kind.str ++ ":" ++ (match stage with | some s => s.str | none => "program")
  | .runtime msg _ => "webgl:" ++ extractErrorType msg

/-! ### Small string helpers used by the summaries -/

/-- `String.prototype.split` with a one-character separator (accumulator holds
the current segment reversed). -/
def splitOnCharAux (sep : Char) : List Char → List Char → List (List Char)
  | [], acc => [acc.reverse]
  | c :: rest, acc =>
    if c = sep then acc.reverse :: splitOnCharAux sep rest []
    else splitOnCharAux sep rest (c :: acc)

def splitOnChar (sep : Char) (l : List Char) : List (List Char) :=
  splitOnCharAux sep l []

/-- `Array.prototype.join` with a one-character separator. -/
def joinWithChar (sep : Char) : List (List Char) → List Char
  | [] => []
  | [x] => x
  | x :: y :: rest => x ++ sep :: joinWithChar sep (y :: rest)

/-- `new Set(xs)` then `Array.from`: deduplication keeping first occurrences. -/
def dedupKeepFirst (seen : List String) : List String → List String
  | [] => []
  | x :: xs =>
    if seen.contains x then dedupKeepFirst seen xs
    else x :: dedupKeepFirst (x :: seen) xs

/-! ### Aggregator state (`ErrorAggregator` fields)

`errorBatch` is the `Map<string, ErrorBatch>` as an insertion-ordered
association list with unique keys; the two timeout handles are booleans. -/

structure ErrorBatch where
  errors : List ErrorEvent
  firstSeen : Nat
  lastSeen : Nat
  totalCount : Nat
deriving DecidableEq

/-- The `WebGLNotification` fields the aggregator determines: `type`,
`severity`, the error's message/errorLog text, and the error's `count`
(absent for shader notifications, whose payload spreads the first shader
error).  Fresh ids and timestamps are external. -/
structure Notification where
  ntype : String
  severity : String
  message : String
  count : Option Nat
deriving DecidableEq

structure AggregatorState where
  batchInterval : Nat := 1000
  maxBatchSize : Nat := 50
  collectionDuration : Nat := 10000
  maxErrorsBeforeStop : Nat := 1000
  errorBatch : List (String × ErrorBatch) := []
  batchTimer : Bool := false
  collectionTimer : Bool := false
  isProcessing : Bool := false
  isActive : Bool := false
  totalErrorCount : Nat := 0
  collectionStartTime : Option Nat := none
deriving DecidableEq

/-- `Map.prototype.get`. -/
def mapGet (m : List (String × ErrorBatch)) (k : String) : Option ErrorBatch :=
  match m with
  | [] => none
  | (k', v) :: rest => if k' = k then some v else mapGet rest k

/-- `Map.prototype.set`: update in place, else append (JS `Map` keeps the
original insertion position of an updated key). -/
def mapSet (m : List (String × ErrorBatch)) (k : String) (v : ErrorBatch) :
    List (String × ErrorBatch) :=
  match m with
  | [] => [(k, v)]
  | (k', v') :: rest =>
    if k' = k then (k, v) :: rest else (k', v') :: mapSet rest k v

/-! ### Summary texts and notifications -/

/-- `ErrorAggregator.createShaderErrorSummary`. -/
def createShaderErrorSummary (errors : List ErrorEvent) (errorType : String) : String :=
  let count := errors.length
  let shaderType :=
    match errors.headD (.runtime "" 1) with
    | .shader _ (some s) _ => s.str
    | _ => "program"
  if count = 1 then (errors.headD (.runtime "" 1)).errorLogOf
  else
    let uniqueErrors := dedupKeepFirst [] (errors.map ErrorEvent.errorLogOf)
    let errorList := String.intercalate "\n" (uniqueErrors.take 3)
    toString count ++ " " ++ shaderType ++ " " ++ errorType ++ " errors:\n" ++ errorList ++
      (if 3 < uniqueErrors.length then "\n... and " ++ toString (uniqueErrors.length - 3) ++ " more"
       else "")

/-- `ErrorAggregator.createWebGLErrorSummary`.  When `errorType` has no colon,
destructuring leaves `operation` undefined and the template prints
`undefined`. -/
def createWebGLErrorSummary (errorType : String) (totalCount : Nat)
    (uniqueMessages : List String) : String :=
  let parts := splitOnChar ':' errorType.data
  let errorCode := String.mk (parts.headD [])
  let operation := match parts with | _ :: b :: _ => String.mk b | _ => "undefined"
  if totalCount = 1 then uniqueMessages.headD ""
  else if errorCode = "INVALID_OPERATION" ∧ operation = "useProgram" then
    "WebGL: INVALID_OPERATION: useProgram: program not valid (" ++ toString totalCount ++
      " occurrences)"
  else if errorCode = "INVALID_OPERATION" ∧ operation = "drawElements" then
    "WebGL: INVALID_OPERATION: drawElements: no valid shader program in use (" ++
      toString totalCount ++ " occurrences)"
  else
    let messagePreview := String.intercalate "; " (uniqueMessages.take 2)
    errorCode ++ " in " ++ operation ++ " (" ++ toString totalCount ++ " occurrences): " ++
      messagePreview ++
      (if 2 < uniqueMessages.length then
        " ... and " ++ toString (uniqueMessages.length - 2) ++ " more variations"
       else "")

/-- The notification value constructed by
`ErrorAggregator.sendAggregatedNotification` for one group. -/
def aggregatedNotification (key : String) (batch : ErrorBatch) : Notification :=
  let parts := splitOnChar ':' key.data
  let category := String.mk (parts.headD [])
  let errorType := String.mk (joinWithChar ':' parts.tail)
  if category = "shader" then
    { ntype :=
        if containsSeq "compilation".data errorType.data then "webgl.error.shader_compilation"
        else "webgl.error.program_linking",
      severity := "error",
      message := createShaderErrorSummary batch.errors errorType,
      count := none }
  else
    let uniqueMessages := dedupKeepFirst [] (batch.errors.map ErrorEvent.messageOf)
    { ntype := "webgl.error.general",
      severity := if 100 < batch.totalCount then "error" else "warning",
      message := createWebGLErrorSummary errorType batch.totalCount uniqueMessages,
      count := some batch.totalCount }

/-! ### The notification transport and the aggregator operations

Each operation returns the evolved state, the list of notifications handed to
the transport (in order), and the console error log lines.  `sink` models
`server.notification`; a `.error` result is the transport throwing. -/

abbrev Sink := Notification → Except String Unit

/-- `sendWebGLNotification` (server module): the transport call is wrapped in
`try/catch`, a failure is logged and swallowed, so this function is total. -/
def sendWebGLNotification (sink : Sink) (n : Notification) :
    List Notification × List String :=
  match sink n with
  | .ok _ => ([n], [])
  | .error e => ([n], ["[MCP] Failed to send notification: " ++ e])

/-- `ErrorAggregator.sendAggregatedNotification`. -/
def sendAggregatedNotification (sink : Sink) (key : String) (batch : ErrorBatch) :
    List Notification × List String :=
  sendWebGLNotification sink (aggregatedNotification key batch)

/-- The `for (const [key, batch] of currentBatch)` loop of `processBatch`.
Its surrounding `try/catch` is unreachable: `sendWebGLNotification` never
rejects. -/
def processLoop (sink : Sink) : List (String × ErrorBatch) →
    List Notification × List String
  | [] => ([], [])
  | (k, b) :: rest =>
    let p := sendAggregatedNotification sink k b
    let q := processLoop sink rest
    (p.1 ++ q.1, p.2 ++ q.2)

/-- `ErrorAggregator.processBatch`. -/
def processBatch (sink : Sink) (st : AggregatorState) :
    AggregatorState × List Notification × List String :=
  if st.isActive = false ∨ st.isProcessing = true ∨ st.errorBatch = [] then (st, [], [])
  else
    let currentBatch := st.errorBatch
    let st1 : AggregatorState := { st with isProcessing := true, errorBatch := [] }
    let r := processLoop sink currentBatch
    ({ st1 with isProcessing := false }, r.1, r.2)

/-- `ErrorAggregator.sendFinalSummary`.  `durationSec` is
`Math.round(duration / 1000)`. -/
def sendFinalSummary (sink : Sink) (st : AggregatorState) (now : Nat) :
    List Notification × List String :=
  match st.collectionStartTime with
  | none => ([], [])
  | some t0 =>
    if st.totalErrorCount = 0 then ([], [])
    else
      let duration := now - t0
      let durationSec := (duration + 500) / 1000
      let summaryMessage :=
        "📊 Error Collection Complete\n━━━━━━━━━━━━━━━━━━━━━━━\nTotal Errors: " ++
        toString st.totalErrorCount ++ "\nCollection Duration: " ++ toString durationSec ++
        "s\n" ++
        (if st.maxErrorsBeforeStop ≤ st.totalErrorCount then
          "⚠️ Collection stopped early due to high error volume"
         else "✅ Collection period completed")
      sendWebGLNotification sink
        { ntype := "webgl.error.general", severity := "info",
          message := summaryMessage, count := some 1 }

namespace ErrorAggregator

/-- `ErrorAggregator.stop`: already inactive is a no-op; otherwise clear the
active flag and both timers, run `processBatch` (whose `!isActive` guard now
holds — see the theorems for claim C1), then `sendFinalSummary`. -/
def stop (sink : Sink) (st : AggregatorState) (now : Nat) :
    AggregatorState × List Notification × List String :=
  if st.isActive = false then (st, [], [])
  else
    let st1 : AggregatorState :=
      { st with isActive := false, batchTimer := false, collectionTimer := false }
    let r1 := processBatch sink st1
    let r2 := sendFinalSummary sink r1.1 now
    (r1.1, r1.2.1 ++ r2.1, r1.2.2 ++ r2.2)

/-- `ErrorAggregator.startBatchTimer` (arming only; the timer callback is a
separate host-driven step). -/
def startBatchTimer (st : AggregatorState) : AggregatorState :=
  if st.isActive = false ∨ st.batchTimer = true then st
  else { st with batchTimer := true }

/-- `ErrorAggregator.start`. -/
def start (st : AggregatorState) (now : Nat) : AggregatorState :=
  if st.isActive = true then st
  else
    let st1 : AggregatorState :=
      { st with isActive := true, totalErrorCount := 0,
                collectionStartTime := some now, errorBatch := [] }
    let st2 := startBatchTimer st1
    { st2 with collectionTimer := true }

/-- `ErrorAggregator.addError`. -/
def addError (sink : Sink) (st : AggregatorState) (e : ErrorEvent) (now : Nat) :
    AggregatorState × List Notification × List String :=
  if st.isActive = false then (st, [], [])
  else
    let errorCount := e.weight
    let st1 : AggregatorState := { st with totalErrorCount := st.totalErrorCount + errorCount }
    if st1.maxErrorsBeforeStop ≤ st1.totalErrorCount then
      stop sink st1 now
    else
      let key := getErrorKey e
      let newBatch : ErrorBatch :=
        match mapGet st1.errorBatch key with
        | some existing =>
          { existing with errors := existing.errors ++ [e], lastSeen := now,
                          totalCount := existing.totalCount + errorCount }
        | none =>
          { errors := [e], firstSeen := now, lastSeen := now, totalCount := errorCount }
      let st2 : AggregatorState := { st1 with errorBatch := mapSet st1.errorBatch key newBatch }
      if st2.maxBatchSize ≤ st2.errorBatch.length ∧ st2.isProcessing = false then
        processBatch sink st2
      else (st2, [], [])

end ErrorAggregator

/-! ### Session traces (for the claim C3 invariant) -/

/-- Fold a sequence of timestamped `addError` calls over the state. -/
def runAddErrors (sink : Sink) (st : AggregatorState) :
    List (ErrorEvent × Nat) → AggregatorState
  | [] => st
  | (e, t) :: rest => runAddErrors sink (ErrorAggregator.addError sink st e t).1 rest

/-- Modelled from the spec's invariant wording: the sum of the weights of the
events of the trace that are ingested while the aggregator is Active. -/
def countedWeights (sink : Sink) (st : AggregatorState) : List (ErrorEvent × Nat) → Nat
  | [] => 0
  | (e, t) :: rest =>
    (if st.isActive then e.weight else 0) +
      countedWeights sink (ErrorAggregator.addError sink st e t).1 rest

/-! ### Helper lemmas -/

lemma channelDiff_self (l : List Nat) (i : Nat) : channelDiff l l i = false := by
  unfold channelDiff
  cases h : l.get? i <;> simp [h]

lemma pixelDiffAt_self (l : List Nat) (ch i : Nat) : pixelDiffAt l l ch i = false := by
  unfold pixelDiffAt
  simp [channelDiff_self]

lemma countDiffPixels_self (l : List Nat) (ch : Nat) : countDiffPixels l l ch = 0 := by
  unfold countDiffPixels
  simp [pixelDiffAt_self]

/-! ### Claim C4 -/

/-- C4: for every pair of images whose widths or heights differ,
`compareScreenshots` returns `{match: false, difference: 100}` with no diff
image, regardless of the pixel contents of either image. -/
theorem C4_dimension_mismatch (baseline current : RawImage) (threshold : ℚ) (ts : String)
    (h : baseline.width ≠ current.width ∨ baseline.height ≠ current.height) :
    compareScreenshots baseline current threshold ts =
      { isMatch := false, difference := 100, diffImagePath := none, diffImageData := none } := by
  unfold compareScreenshots
  rw [if_pos h]

def imgR1 : RawImage := { width := 1, height := 1, channels := 3, data := [10, 20, 30] }
def imgR2 : RawImage := { width := 2, height := 1, channels := 3, data := [10, 20, 30, 40, 50, 60] }

/-- Witness for C4 at a concrete 1×1 vs 2×1 pair. -/
theorem C4_witness :
    (imgR1.width ≠ imgR2.width ∨ imgR1.height ≠ imgR2.height) ∧
    compareScreenshots imgR1 imgR2 (1/10) "ts" =
      { isMatch := false, difference := 100, diffImagePath := none, diffImageData := none } :=
  ⟨Or.inl (by decide),
   C4_dimension_mismatch imgR1 imgR2 (1/10) "ts" (Or.inl (by decide))⟩

/-! ### Claim C7 -/

/-- C7: comparing a (nonempty) image against itself yields `difference = 0`
and `match = true` for every non-negative threshold. -/
theorem C7_self_compare (img : RawImage) (threshold : ℚ) (ts : String)
    (hw : 0 < img.width) (hh : 0 < img.height) (ht : 0 ≤ threshold) :
    (compareScreenshots img img threshold ts).difference = 0 ∧
    (compareScreenshots img img threshold ts).isMatch = true := by
  have hdec : decide ((0 : ℚ) ≤ threshold) = true := decide_eq_true ht
  simp [compareScreenshots, countDiffPixels_self, hdec]

def imgRed4 : RawImage :=
  { width := 4, height := 4, channels := 3,
    data := (List.replicate 16 [255, 0, 0]).flatten }

/-- Witness for C7: the 4×4 all-red image against itself. -/
theorem C7_witness :
    0 < imgRed4.width ∧ 0 < imgRed4.height ∧ (0 : ℚ) ≤ 1/10 ∧
    (compareScreenshots imgRed4 imgRed4 (1/10) "ts").difference = 0 ∧
    (compareScreenshots imgRed4 imgRed4 (1/10) "ts").isMatch = true := by
  refine ⟨by decide, by decide, by norm_num, ?_⟩
  exact C7_self_compare imgRed4 (1/10) "ts" (by decide) (by decide) (by norm_num)

/-! ### Claim C8 -/

/-- C8 counterexample: a dimension-mismatched pair has `match = false` but no
diff image at all (neither path nor buffer), refuting the "if and only if". -/
theorem C8_counterexample :
    (compareScreenshots imgR1 imgR2 (1/10) "ts").isMatch = false ∧
    (compareScreenshots imgR1 imgR2 (1/10) "ts").diffImagePath = none ∧
    (compareScreenshots imgR1 imgR2 (1/10) "ts").diffImageData = none := by
  decide

/-- C8 (amended): for equal-dimension comparisons, the diff image (path and
in-memory buffer) is produced if and only if `match = false`; on dimension
mismatch no diff image is produced even though `match = false`. -/
theorem C8_amended (b c : RawImage) (threshold : ℚ) (ts : String)
    (hw : b.width = c.width) (hh : b.height = c.height) :
    ((compareScreenshots b c threshold ts).diffImagePath.isSome = true ↔
      (compareScreenshots b c threshold ts).isMatch = false) ∧
    ((compareScreenshots b c threshold ts).diffImageData.isSome = true ↔
      (compareScreenshots b c threshold ts).isMatch = false) := by
  unfold compareScreenshots
  rw [if_neg (by simp [hw, hh])]
  dsimp only
  split <;> split <;> simp

/-- Witness for C8 (amended) at a concrete equal-dimension pair. -/
theorem C8_witness :
    ((compareScreenshots imgRed4 imgRed4 (1/10) "ts").diffImagePath.isSome = true ↔
      (compareScreenshots imgRed4 imgRed4 (1/10) "ts").isMatch = false) ∧
    ((compareScreenshots imgRed4 imgRed4 (1/10) "ts").diffImageData.isSome = true ↔
      (compareScreenshots imgRed4 imgRed4 (1/10) "ts").isMatch = false) :=
  C8_amended imgRed4 imgRed4 (1/10) "ts" rfl rfl

/-! ### Aggregator helper lemmas -/

/-- A sink that always delivers. -/
def okSink : Sink := fun _ => .ok ()

lemma send_fst (sink : Sink) (n : Notification) :
    (sendWebGLNotification sink n).1 = [n] := by
  unfold sendWebGLNotification
  cases h : sink n <;> simp [h]

lemma processLoop_fst (sink : Sink) (l : List (String × ErrorBatch)) :
    (processLoop sink l).1 = l.map (fun p => aggregatedNotification p.1 p.2) := by
  induction l with
  | nil => rfl
  | cons p rest ih =>
    obtain ⟨k, b⟩ := p
    simp [processLoop, sendAggregatedNotification, send_fst, ih]

lemma processBatch_fst (sink : Sink) (st : AggregatorState) :
    (processBatch sink st).1 =
      if st.isActive = false ∨ st.isProcessing = true ∨ st.errorBatch = [] then st
      else { st with errorBatch := [] } := by
  by_cases h : st.isActive = false ∨ st.isProcessing = true ∨ st.errorBatch = []
  · simp [processBatch, h]
  · have hp : st.isProcessing = false := by
      cases hp : st.isProcessing
      · rfl
      · exact absurd (Or.inr (Or.inl hp)) h
    simp [processBatch, h]
    cases st
    simp_all

lemma processBatch_notifs (sink : Sink) (st : AggregatorState) :
    (processBatch sink st).2.1 =
      if st.isActive = false ∨ st.isProcessing = true ∨ st.errorBatch = [] then []
      else st.errorBatch.map (fun p => aggregatedNotification p.1 p.2) := by
  by_cases h : st.isActive = false ∨ st.isProcessing = true ∨ st.errorBatch = [] <;>
    simp [processBatch, h, processLoop_fst]

lemma stop_fst (sink : Sink) (st : AggregatorState) (now : Nat) :
    (ErrorAggregator.stop sink st now).1 =
      if st.isActive = false then st
      else { st with isActive := false, batchTimer := false, collectionTimer := false } := by
  by_cases h : st.isActive = false
  · simp [ErrorAggregator.stop, h]
  · simp [ErrorAggregator.stop, h, processBatch_fst]

/-! ### Claim C1

`stop()` sets `isActive := false` and only then calls `processBatch`, whose
`!this.isActive` guard therefore fires: the "Process final batch" step the
code announces is a no-op.  Open groups are left in `errorBatch` unflushed
and produce no aggregated notification; only the session summary goes out. -/

def stC1 : AggregatorState :=
  { isActive := true, batchTimer := true, collectionTimer := true,
    totalErrorCount := 1, collectionStartTime := some 0,
    errorBatch := [("webgl:INVALID_OPERATION:useProgram",
      { errors := [.runtime "WebGL: INVALID_OPERATION: useProgram: program not valid" 1],
        firstSeen := 0, lastSeen := 0, totalCount := 1 })] }

/-- C1: evaluation at the failing input.  Stopping an active session with one
open error group does cancel both timers and reach the Stopped state, but the
"final flush" emits nothing: the open group stays in `errorBatch` and the only
notification handed to the transport is the `"info"` session summary — not
the one-aggregated-notification-per-open-group the claim requires. -/
theorem C1_stop_final_flush_is_noop :
    (ErrorAggregator.stop okSink stC1 500).1.isActive = false ∧
    (ErrorAggregator.stop okSink stC1 500).1.batchTimer = false ∧
    (ErrorAggregator.stop okSink stC1 500).1.collectionTimer = false ∧
    (ErrorAggregator.stop okSink stC1 500).1.errorBatch = stC1.errorBatch ∧
    stC1.errorBatch ≠ [] ∧
    (ErrorAggregator.stop okSink stC1 500).2.1.map Notification.severity = ["info"] := by
  refine ⟨rfl, rfl, rfl, rfl, by decide, rfl⟩

/-! ### Claim C2

When an `addError` call crosses the volume threshold, the code adds the
weight, logs, awaits `stop()` and returns — before `getErrorKey` runs, so the
triggering event is never put into a group (and, with the C1 behaviour, never
flushed either). -/

def stC2 : AggregatorState :=
  { isActive := true, batchTimer := true, collectionTimer := true,
    totalErrorCount := 999, collectionStartTime := some 0, errorBatch := [] }

/-- C2 counterexample: with `totalErrorCount = 999` and the default
`maxErrorsBeforeStop = 1000`, a weight-1 event triggers the synchronous stop,
but the error-group map stays empty and the only notification handed to the
transport is the `"info"` summary — the triggering event is recorded into no
group and flushed zero times, not "exactly once". -/
theorem C2_counterexample :
    (ErrorAggregator.addError okSink stC2
        (.runtime "WebGL: INVALID_OPERATION: useProgram: program not valid" 1) 7).1.errorBatch
      = [] ∧
    (ErrorAggregator.addError okSink stC2
        (.runtime "WebGL: INVALID_OPERATION: useProgram: program not valid" 1) 7).1.isActive
      = false ∧
    (ErrorAggregator.addError okSink stC2
        (.runtime "WebGL: INVALID_OPERATION: useProgram: program not valid" 1) 7).1.totalErrorCount
      = 1000 ∧
    (ErrorAggregator.addError okSink stC2
        (.runtime "WebGL: INVALID_OPERATION: useProgram: program not valid" 1) 7).2.1.map
        Notification.severity
      = ["info"] :=
  ⟨rfl, rfl, rfl, rfl⟩

/-- C2 (amended): an `addError` whose event weight makes `totalErrorCount`
reach or exceed `maxErrorsBeforeStop` triggers `stop()` immediately and
synchronously, and the event's weight is still counted into
`totalErrorCount`; but the triggering event is not recorded into any error
group — the group map is exactly what it was before the call. -/
theorem C2_amended (sink : Sink) (st : AggregatorState) (e : ErrorEvent) (now : Nat)
    (hact : st.isActive = true)
    (hthr : st.maxErrorsBeforeStop ≤ st.totalErrorCount + e.weight) :
    (ErrorAggregator.addError sink st e now).1.isActive = false ∧
    (ErrorAggregator.addError sink st e now).1.totalErrorCount
      = st.totalErrorCount + e.weight ∧
    (ErrorAggregator.addError sink st e now).1.errorBatch = st.errorBatch := by
  unfold ErrorAggregator.addError
  rw [if_neg (by simp [hact])]
  dsimp only
  rw [if_pos (by simpa using hthr)]
  rw [stop_fst]
  rw [if_neg (by simp [hact])]
  simp

/-- Witness for C2 (amended) at a concrete threshold-crossing call. -/
theorem C2_amended_witness :
    (ErrorAggregator.addError okSink stC2 (.runtime "boom" 1) 7).1.isActive = false ∧
    (ErrorAggregator.addError okSink stC2 (.runtime "boom" 1) 7).1.totalErrorCount
      = stC2.totalErrorCount + (ErrorEvent.runtime "boom" 1).weight ∧
    (ErrorAggregator.addError okSink stC2 (.runtime "boom" 1) 7).1.errorBatch
      = stC2.errorBatch :=
  C2_amended okSink stC2 (.runtime "boom" 1) 7 rfl (by decide)

/-! ### Claim C3 -/

lemma addError_totalCount (sink : Sink) (st : AggregatorState) (e : ErrorEvent) (now : Nat) :
    (ErrorAggregator.addError sink st e now).1.totalErrorCount =
      st.totalErrorCount + (if st.isActive = true then e.weight else 0) := by
  cases hact : st.isActive
  · simp [ErrorAggregator.addError, hact]
  · unfold ErrorAggregator.addError
    rw [if_neg (by simp [hact])]
    dsimp only
    split
    · rw [stop_fst]
      rw [if_neg (by simp [hact])]
      simp
    · split
      · rw [processBatch_fst]
        split <;> simp
      · simp

lemma runAddErrors_total (sink : Sink) (evs : List (ErrorEvent × Nat)) :
    ∀ st : AggregatorState,
      (runAddErrors sink st evs).totalErrorCount =
        st.totalErrorCount + countedWeights sink st evs := by
  induction evs with
  | nil => intro st; simp [runAddErrors, countedWeights]
  | cons p rest ih =>
    intro st
    obtain ⟨e, t⟩ := p
    rw [runAddErrors, countedWeights, ih, addError_totalCount]
    cases st.isActive <;> simp <;> omega

lemma start_total_reset (st : AggregatorState) (now : Nat) (h : st.isActive = false) :
    (ErrorAggregator.start st now).totalErrorCount = 0 := by
  unfold ErrorAggregator.start ErrorAggregator.startBatchTimer
  rw [if_neg (by simp [h])]
  dsimp only
  split <;> rfl

/-- C3: (a) `totalErrorCount` never decreases across an `addError` call;
(b) `addError` on a non-Active aggregator is a complete no-op (state
unchanged, nothing emitted), in particular `totalErrorCount` is unchanged;
(c) starting a non-Active aggregator and folding any sequence of `addError`
calls leaves `totalErrorCount` equal to the sum of the weights of exactly
those events that were ingested while the session was Active
(`countedWeights` is that sum, written from the spec's invariant wording). -/
theorem C3_totalErrorCount_invariant (sink : Sink) :
    (∀ (st : AggregatorState) (e : ErrorEvent) (now : Nat),
      st.totalErrorCount ≤ (ErrorAggregator.addError sink st e now).1.totalErrorCount) ∧
    (∀ (st : AggregatorState) (e : ErrorEvent) (now : Nat),
      st.isActive = false → ErrorAggregator.addError sink st e now = (st, [], [])) ∧
    (∀ (st0 : AggregatorState) (now : Nat) (evs : List (ErrorEvent × Nat)),
      st0.isActive = false →
      (runAddErrors sink (ErrorAggregator.start st0 now) evs).totalErrorCount =
        countedWeights sink (ErrorAggregator.start st0 now) evs) := by
  refine ⟨?_, ?_, ?_⟩
  · intro st e now
    rw [addError_totalCount]
    exact Nat.le_add_right _ _
  · intro st e now h
    simp [ErrorAggregator.addError, h]
  · intro st0 now evs h
    rw [runAddErrors_total, start_total_reset st0 now h]
    omega

def stOffC3 : AggregatorState := { }

/-- Witness for C3 at concrete states and a concrete two-event trace. -/
theorem C3_witness :
    (stC1.totalErrorCount ≤
      (ErrorAggregator.addError okSink stC1 (.runtime "INVALID_ENUM: x" 2) 3).1.totalErrorCount) ∧
    (ErrorAggregator.addError okSink stOffC3 (.runtime "INVALID_ENUM: x" 2) 3
      = (stOffC3, [], [])) ∧
    ((runAddErrors okSink (ErrorAggregator.start stOffC3 0)
        [(.runtime "INVALID_ENUM: x" 2, 1), (.shader .shader_compilation (some .vertex) "log", 2)]).totalErrorCount
      = countedWeights okSink (ErrorAggregator.start stOffC3 0)
        [(.runtime "INVALID_ENUM: x" 2, 1), (.shader .shader_compilation (some .vertex) "log", 2)]) :=
  ⟨(C3_totalErrorCount_invariant okSink).1 stC1 (.runtime "INVALID_ENUM: x" 2) 3,
   (C3_totalErrorCount_invariant okSink).2.1 stOffC3 (.runtime "INVALID_ENUM: x" 2) 3 rfl,
   (C3_totalErrorCount_invariant okSink).2.2 stOffC3 0
     [(.runtime "INVALID_ENUM: x" 2, 1), (.shader .shader_compilation (some .vertex) "log", 2)] rfl⟩

/-! ### Claim C5 -/

lemma aggNotif_useProgram (b : ErrorBatch) :
    aggregatedNotification "webgl:INVALID_OPERATION:useProgram" b =
      { ntype := "webgl.error.general",
        severity := if 100 < b.totalCount then "error" else "warning",
        message := createWebGLErrorSummary "INVALID_OPERATION:useProgram" b.totalCount
          (dedupKeepFirst [] (b.errors.map ErrorEvent.messageOf)),
        count := some b.totalCount } := rfl

/-- C5: flushing a batch whose single open group has the runtime signature
`webgl:INVALID_OPERATION:useProgram` and 150 accumulated occurrences emits
exactly one notification, with severity `"error"` (150 > 100) and the
special-cased message naming 150 occurrences; and for such runtime groups any
total count between 2 and 100 gets severity `"warning"` instead. -/
theorem C5_useProgram_150_flush (sink : Sink) (st : AggregatorState) (b : ErrorBatch)
    (hact : st.isActive = true) (hproc : st.isProcessing = false)
    (hbatch : st.errorBatch = [("webgl:INVALID_OPERATION:useProgram", b)])
    (hcount : b.totalCount = 150) :
    ((processBatch sink st).2.1.map (fun n => (n.severity, n.message)) =
      [("error", "WebGL: INVALID_OPERATION: useProgram: program not valid (150 occurrences)")]) ∧
    (∀ b2 : ErrorBatch, 2 ≤ b2.totalCount → b2.totalCount ≤ 100 →
      (aggregatedNotification "webgl:INVALID_OPERATION:useProgram" b2).severity = "warning") := by
  constructor
  · rw [processBatch_notifs]
    rw [if_neg (by simp [hact, hproc, hbatch])]
    rw [hbatch]
    simp only [List.map_cons, List.map_nil, aggNotif_useProgram, hcount]
    rfl
  · intro b2 h2 h100
    rw [aggNotif_useProgram]
    have : ¬ (100 < b2.totalCount) := by omega
    simp [this]

def bC5 : ErrorBatch :=
  { errors := [.runtime "WebGL: INVALID_OPERATION: useProgram: program not valid" 150],
    firstSeen := 0, lastSeen := 0, totalCount := 150 }

def stC5 : AggregatorState :=
  { isActive := true, batchTimer := true, collectionTimer := true,
    totalErrorCount := 150, collectionStartTime := some 0,
    errorBatch := [("webgl:INVALID_OPERATION:useProgram", bC5)] }

def bC5warn : ErrorBatch :=
  { errors := [.runtime "WebGL: INVALID_OPERATION: useProgram: program not valid" 42],
    firstSeen := 0, lastSeen := 0, totalCount := 42 }

/-- Witness for C5 at a concrete state and a concrete 42-count group. -/
theorem C5_witness :
    ((processBatch okSink stC5).2.1.map (fun n => (n.severity, n.message)) =
      [("error", "WebGL: INVALID_OPERATION: useProgram: program not valid (150 occurrences)")]) ∧
    (aggregatedNotification "webgl:INVALID_OPERATION:useProgram" bC5warn).severity = "warning" :=
  ⟨(C5_useProgram_150_flush okSink stC5 bC5 rfl rfl rfl rfl).1,
   (C5_useProgram_150_flush okSink stC5 bC5 rfl rfl rfl rfl).2 bC5warn (by decide) (by decide)⟩

/-! ### Claim C10 -/

lemma splitOnCharAux_pre (sep : Char) (pre : List Char) (hpre : ∀ c ∈ pre, c ≠ sep) :
    ∀ (rest acc : List Char),
      splitOnCharAux sep (pre ++ sep :: rest) acc =
        (acc.reverse ++ pre) :: splitOnChar sep rest := by
  induction pre with
  | nil =>
    intro rest acc
    simp [splitOnCharAux, splitOnChar]
  | cons a pre' ih =>
    intro rest acc
    have ha : a ≠ sep := hpre a (by simp)
    show splitOnCharAux sep (a :: (pre' ++ sep :: rest)) acc = _
    rw [splitOnCharAux, if_neg ha, ih (fun c hc => hpre c (by simp [hc])) rest (a :: acc)]
    simp

lemma splitOnChar_pre (sep : Char) (pre rest : List Char) (hpre : ∀ c ∈ pre, c ≠ sep) :
    splitOnChar sep (pre ++ sep :: rest) = pre :: splitOnChar sep rest := by
  unfold splitOnChar
  rw [splitOnCharAux_pre sep pre hpre rest []]
  simp [splitOnChar]

/-- C10: every notification built for a group whose signature begins with
`shader:` has severity `"error"`, for every batch (so for every group size
and total occurrence count); the `totalCount > 100` severity rule lives only
in the non-shader (runtime WebGL) branch. -/
theorem C10_shader_groups_always_error (rest : List Char) (batch : ErrorBatch) :
    (aggregatedNotification (String.mk ("shader".data ++ ':' :: rest)) batch).severity
      = "error" := by
  have hd : (splitOnChar ':' (String.mk ("shader".data ++ ':' :: rest)).data).headD []
      = "shader".data := by
    rw [show (String.mk ("shader".data ++ ':' :: rest)).data
        = "shader".data ++ ':' :: rest from rfl]
    rw [splitOnChar_pre ':' "shader".data rest (by decide)]
    rfl
  simp only [aggregatedNotification, hd]
  simp

/-! ### Claim C9 -/

lemma sendFinalSummary_sink_eq (sink1 sink2 : Sink) (st : AggregatorState) (now : Nat) :
    (sendFinalSummary sink1 st now).1 = (sendFinalSummary sink2 st now).1 := by
  unfold sendFinalSummary
  cases h : st.collectionStartTime
  · rfl
  · dsimp only
    split
    · rfl
    · rw [send_fst, send_fst]

lemma stop_active_eval (sink : Sink) (st : AggregatorState) (now : Nat)
    (h : ¬ st.isActive = false) :
    ErrorAggregator.stop sink st now =
      ({ st with isActive := false, batchTimer := false, collectionTimer := false },
       (sendFinalSummary sink
         { st with isActive := false, batchTimer := false, collectionTimer := false } now).1,
       (sendFinalSummary sink
         { st with isActive := false, batchTimer := false, collectionTimer := false } now).2) := by
  unfold ErrorAggregator.stop
  rw [if_neg h]
  rfl

lemma stop_sink_eq (sink1 sink2 : Sink) (st : AggregatorState) (now : Nat) :
    (ErrorAggregator.stop sink1 st now).1 = (ErrorAggregator.stop sink2 st now).1 ∧
    (ErrorAggregator.stop sink1 st now).2.1 = (ErrorAggregator.stop sink2 st now).2.1 := by
  by_cases h : st.isActive = false
  · simp [ErrorAggregator.stop, h]
  · rw [stop_active_eval sink1 st now h, stop_active_eval sink2 st now h]
    exact ⟨rfl, sendFinalSummary_sink_eq sink1 sink2 _ now⟩

lemma processBatch_sink_eq (sink1 sink2 : Sink) (st : AggregatorState) :
    (processBatch sink1 st).1 = (processBatch sink2 st).1 ∧
    (processBatch sink1 st).2.1 = (processBatch sink2 st).2.1 :=
  ⟨by rw [processBatch_fst, processBatch_fst],
   by rw [processBatch_notifs, processBatch_notifs]⟩

lemma addError_sink_eq (sink1 sink2 : Sink) (st : AggregatorState) (e : ErrorEvent) (now : Nat) :
    (ErrorAggregator.addError sink1 st e now).1 = (ErrorAggregator.addError sink2 st e now).1 ∧
    (ErrorAggregator.addError sink1 st e now).2.1
      = (ErrorAggregator.addError sink2 st e now).2.1 := by
  unfold ErrorAggregator.addError
  by_cases hact : st.isActive = false
  · simp [hact]
  · simp only [if_neg hact]
    by_cases hthr : st.maxErrorsBeforeStop ≤ st.totalErrorCount + e.weight
    · simp only [if_pos hthr]
      exact stop_sink_eq sink1 sink2 _ now
    · simp only [if_neg hthr]
      cases hm : mapGet st.errorBatch (getErrorKey e) <;> simp only [hm]
      · split
        · exact processBatch_sink_eq sink1 sink2 _
        · exact ⟨rfl, rfl⟩
      · split
        · exact processBatch_sink_eq sink1 sink2 _
        · exact ⟨rfl, rfl⟩

/-- C9: failed notification emissions are contained.  The transport call is
guarded by the `try/catch` inside `sendWebGLNotification`, so (a) the state
evolution and the stream of notifications handed to the transport by
`addError`, `stop` and `processBatch` are identical for any two transports —
in particular a throwing transport changes nothing about subsequent batch
processing and no exception escapes these operations (they are total
functions of the state) — and (b) a transport failure is logged with the
`[MCP] Failed to send notification:` line. -/
theorem C9_sink_failures_contained :
    (∀ (sink1 sink2 : Sink) (st : AggregatorState) (e : ErrorEvent) (now : Nat),
      (ErrorAggregator.addError sink1 st e now).1 = (ErrorAggregator.addError sink2 st e now).1 ∧
      (ErrorAggregator.addError sink1 st e now).2.1
        = (ErrorAggregator.addError sink2 st e now).2.1) ∧
    (∀ (sink1 sink2 : Sink) (st : AggregatorState) (now : Nat),
      (ErrorAggregator.stop sink1 st now).1 = (ErrorAggregator.stop sink2 st now).1 ∧
      (ErrorAggregator.stop sink1 st now).2.1 = (ErrorAggregator.stop sink2 st now).2.1) ∧
    (∀ (sink1 sink2 : Sink) (st : AggregatorState),
      (processBatch sink1 st).1 = (processBatch sink2 st).1 ∧
      (processBatch sink1 st).2.1 = (processBatch sink2 st).2.1) ∧
    (∀ (emsg : String) (n : Notification),
      sendWebGLNotification (fun _ => .error emsg) n =
        ([n], ["[MCP] Failed to send notification: " ++ emsg])) :=
  ⟨addError_sink_eq, stop_sink_eq, processBatch_sink_eq, fun _ _ => rfl⟩

/-! ### Claim C6: character-class and list lemmas -/

lemma isJsSpace_of_upperScore {c : Char} (h : isUpperScore c = true) : isJsSpace c = false := by
  simp only [isUpperScore, decide_eq_true_eq] at h
  simp only [isJsSpace, decide_eq_false_iff_not]
  omega

lemma isJsSpace_of_wordChar {c : Char} (h : isWordChar c = true) : isJsSpace c = false := by
  simp only [isWordChar, decide_eq_true_eq] at h
  simp only [isJsSpace, decide_eq_false_iff_not]
  omega

lemma dropWhile_append_all {p : Char → Bool} {s : List Char} (hs : ∀ c ∈ s, p c = true)
    (l : List Char) : List.dropWhile p (s ++ l) = List.dropWhile p l := by
  induction s with
  | nil => rfl
  | cons a s' ih =>
    have ha : p a = true := hs a (by simp)
    simp only [List.cons_append, List.dropWhile_cons, ha, if_true]
    exact ih (fun c hc => hs c (by simp [hc]))

lemma takeWhile_append_stop {p : Char → Bool} {s t : List Char}
    (hs : ∀ c ∈ s, p c = true) (ht : ∀ c ∈ t.take 1, p c = false) :
    List.takeWhile p (s ++ t) = s := by
  induction s with
  | nil =>
    cases t with
    | nil => rfl
    | cons a t' =>
      have ha : p a = false := ht a (by simp)
      simp [List.takeWhile_cons, ha]
  | cons b s' ih =>
    have hb : p b = true := hs b (by simp)
    simp only [List.cons_append, List.takeWhile_cons, hb, if_true]
    rw [ih (fun c hc => hs c (by simp [hc]))]

lemma dropWhile_append_stop {p : Char → Bool} {s t : List Char}
    (hs : ∀ c ∈ s, p c = true) (ht : ∀ c ∈ t.take 1, p c = false) :
    List.dropWhile p (s ++ t) = t := by
  rw [dropWhile_append_all hs]
  cases t with
  | nil => rfl
  | cons a t' =>
    have ha : p a = false := ht a (by simp)
    simp [List.dropWhile_cons, ha]

lemma matchTail_structured (sp1 code sp2 op tail : List Char)
    (hsp1 : ∀ c ∈ sp1, isJsSpace c = true)
    (hcode0 : code ≠ []) (hcode : ∀ c ∈ code, isUpperScore c = true)
    (hsp2 : ∀ c ∈ sp2, isJsSpace c = true)
    (hop0 : op ≠ []) (hop : ∀ c ∈ op, isWordChar c = true)
    (htail : ∀ c ∈ tail.take 1, isWordChar c = false) :
    matchTail (sp1 ++ (code ++ ':' :: (sp2 ++ (op ++ tail)))) = some (code, op) := by
  unfold matchTail
  dsimp only
  have hcode1 : ∀ c ∈ (code ++ ':' :: (sp2 ++ (op ++ tail))).take 1, isJsSpace c = false := by
    cases code with
    | nil => exact absurd rfl hcode0
    | cons c0 code' =>
      intro c hc
      simp only [List.cons_append, List.take_succ_cons, List.take_zero,
        List.mem_singleton] at hc
      subst hc
      exact isJsSpace_of_upperScore (hcode _ (by simp))
  rw [dropWhile_append_stop hsp1 hcode1]
  have hcolon : ∀ c ∈ (':' :: (sp2 ++ (op ++ tail))).take 1, isUpperScore c = false := by
    intro c hc
    simp only [List.take_succ_cons, List.take_zero, List.mem_singleton] at hc
    subst hc
    decide
  rw [takeWhile_append_stop hcode hcolon, dropWhile_append_stop hcode hcolon]
  rw [if_neg (by simpa using hcode0)]
  show (if (List.takeWhile isWordChar
              (List.dropWhile isJsSpace (sp2 ++ (op ++ tail)))).isEmpty = true then none
        else some (code, List.takeWhile isWordChar
              (List.dropWhile isJsSpace (sp2 ++ (op ++ tail))))) = some (code, op)
  have hop1 : ∀ c ∈ (op ++ tail).take 1, isJsSpace c = false := by
    cases op with
    | nil => exact absurd rfl hop0
    | cons c0 op' =>
      intro c hc
      simp only [List.cons_append, List.take_succ_cons, List.take_zero,
        List.mem_singleton] at hc
      subst hc
      exact isJsSpace_of_wordChar (hop _ (by simp))
  rw [dropWhile_append_stop hsp2 hop1]
  rw [takeWhile_append_stop hop htail]
  rw [if_neg (by simpa using hop0)]

lemma scanColon_skip {mid : List Char}
    (hmid : ∀ c ∈ mid, ¬ c = ':' ∧ isLineTerm c = false) (l : List Char) :
    scanColon (mid ++ l) = scanColon l := by
  induction mid with
  | nil => rfl
  | cons a mid' ih =>
    obtain ⟨ha1, ha2⟩ := hmid a (by simp)
    simp only [List.cons_append, scanColon, if_neg ha1, ha2, Bool.false_eq_true, if_false]
    exact ih (fun c hc => hmid c (by simp [hc])) -- hmm naming

lemma startsWithSeq_self_append (pat l : List Char) :
    startsWithSeq pat (pat ++ l) = true := by
  induction pat with
  | nil => rfl
  | cons p ps ih => simp [startsWithSeq, ih]

lemma regexWebGL_structured (mid sp1 code sp2 op tail : List Char)
    (hmid : ∀ c ∈ mid, ¬ c = ':' ∧ isLineTerm c = false)
    (hsp1 : ∀ c ∈ sp1, isJsSpace c = true)
    (hcode0 : code ≠ []) (hcode : ∀ c ∈ code, isUpperScore c = true)
    (hsp2 : ∀ c ∈ sp2, isJsSpace c = true)
    (hop0 : op ≠ []) (hop : ∀ c ∈ op, isWordChar c = true)
    (htail : ∀ c ∈ tail.take 1, isWordChar c = false) :
    regexWebGL (webglChars ++ (mid ++ ':' :: (sp1 ++ (code ++ ':' :: (sp2 ++ (op ++ tail))))))
      = some (code, op) := by
  have hscan : scanColon (mid ++ ':' :: (sp1 ++ (code ++ ':' :: (sp2 ++ (op ++ tail)))))
      = some (code, op) := by
    rw [scanColon_skip hmid]
    rw [scanColon, if_pos rfl,
      matchTail_structured sp1 code sp2 op tail hsp1 hcode0 hcode hsp2 hop0 hop htail]
  show regexWebGL ('W' :: ('e' :: 'b' :: 'G' :: 'L' ::
      (mid ++ ':' :: (sp1 ++ (code ++ ':' :: (sp2 ++ (op ++ tail))))))) = some (code, op)
  rw [regexWebGL]
  rw [if_pos (show startsWithSeq webglChars
      ('W' :: ('e' :: 'b' :: 'G' :: 'L' ::
        (mid ++ ':' :: (sp1 ++ (code ++ ':' :: (sp2 ++ (op ++ tail))))))) = true
    from startsWithSeq_self_append webglChars
      (mid ++ ':' :: (sp1 ++ (code ++ ':' :: (sp2 ++ (op ++ tail))))))]
  simp only [List.drop_succ_cons, List.drop_zero]
  rw [hscan]

lemma regexWebGL_of_not_contains :
    ∀ l : List Char, containsSeq webglChars l = false → regexWebGL l = none := by
  intro l
  induction l with
  | nil => intro _; rfl
  | cons c rest ih =>
    intro h
    rw [containsSeq] at h
    simp only [Bool.or_eq_false_iff] at h
    rw [regexWebGL, if_neg (by simp [h.1])]
    exact ih h.2

lemma containsSeq_webgl_of_no_upper {l : List Char}
    (h : ∀ c ∈ l, isUpperScore c = false) : containsSeq webglChars l = false := by
  induction l with
  | nil => rfl
  | cons c rest ih =>
    have hW : ('W' == c) = false := by
      cases hbe : ('W' == c)
      · rfl
      · have hc : 'W' = c := by simpa using hbe
        have := h c (by simp)
        rw [← hc] at this
        exact absurd this (by decide)
    rw [containsSeq]
    simp only [webglChars, startsWithSeq, hW, Bool.false_and, Bool.false_or]
    exact ih (fun c hc => h c (by simp [hc]))

lemma firstCapsRun_none {l : List Char}
    (h : ∀ c ∈ l, isUpperScore c = false) : firstCapsRun l = none := by
  induction l with
  | nil => rfl
  | cons c rest ih =>
    rw [firstCapsRun, if_neg (by simp [h c (by simp)])]
    exact ih (fun c hc => h c (by simp [hc]))

lemma firstCapsRun_structured (pre run post : List Char)
    (hpre : ∀ c ∈ pre, isUpperScore c = false)
    (hrun0 : run ≠ []) (hrun : ∀ c ∈ run, isUpperScore c = true)
    (hpost : ∀ c ∈ post.take 1, isUpperScore c = false) :
    firstCapsRun (pre ++ (run ++ post)) = some run := by
  induction pre with
  | nil =>
    cases run with
    | nil => exact absurd rfl hrun0
    | cons r0 run' =>
      simp only [List.nil_append, List.cons_append]
      rw [firstCapsRun, if_pos (by simp [hrun r0 (by simp)])]
      rw [show r0 :: (run' ++ post) = (r0 :: run') ++ post from rfl]
      rw [takeWhile_append_stop hrun hpost]
  | cons a pre' ih =>
    simp only [List.cons_append]
    rw [firstCapsRun, if_neg (by simp [hpre a (by simp)])]
    exact ih (fun c hc => hpre c (by simp [hc]))

/-- C6 counterexample: the message `INVALID_OPERATION: drawElements` contains
a `SOME_CODE: functionName` pattern, yet the regex requires a preceding
`WebGL` + colon, so the computed key falls back to the first `[A-Z_]+` run:
`webgl:INVALID_OPERATION`, not `webgl:INVALID_OPERATION:drawElements`. -/
theorem C6_counterexample :
    getErrorKey (.runtime "INVALID_OPERATION: drawElements" 1)
      = "webgl:INVALID_OPERATION" ∧
    getErrorKey (.runtime "INVALID_OPERATION: drawElements" 1)
      ≠ "webgl:INVALID_OPERATION:drawElements" := by
  constructor
  · rfl
  · decide

lemma matchTail_structured' (sp1 code sp2 op tail : List Char)
    (hsp1 : ∀ c ∈ sp1, isJsSpace c = true)
    (hcode0 : code ≠ []) (hcode : ∀ c ∈ code, isUpperScore c = true)
    (hsp2 : ∀ c ∈ sp2, isJsSpace c = true)
    (hop0 : op ≠ []) (hop : ∀ c ∈ op, isWordChar c = true) :
    matchTail (sp1 ++ (code ++ ':' :: (sp2 ++ (op ++ tail))))
      = some (code, (op ++ tail).takeWhile isWordChar) := by
  unfold matchTail
  dsimp only
  have hcode1 : ∀ c ∈ (code ++ ':' :: (sp2 ++ (op ++ tail))).take 1, isJsSpace c = false := by
    cases code with
    | nil => exact absurd rfl hcode0
    | cons c0 code' =>
      intro c hc
      simp only [List.cons_append, List.take_succ_cons, List.take_zero,
        List.mem_singleton] at hc
      subst hc
      exact isJsSpace_of_upperScore (hcode _ (by simp))
  rw [dropWhile_append_stop hsp1 hcode1]
  have hcolon : ∀ c ∈ (':' :: (sp2 ++ (op ++ tail))).take 1, isUpperScore c = false := by
    intro c hc
    simp only [List.take_succ_cons, List.take_zero, List.mem_singleton] at hc
    subst hc
    decide
  rw [takeWhile_append_stop hcode hcolon, dropWhile_append_stop hcode hcolon]
  rw [if_neg (by simpa using hcode0)]
  show (if (List.takeWhile isWordChar
              (List.dropWhile isJsSpace (sp2 ++ (op ++ tail)))).isEmpty = true then none
        else some (code, List.takeWhile isWordChar
              (List.dropWhile isJsSpace (sp2 ++ (op ++ tail)))))
      = some (code, (op ++ tail).takeWhile isWordChar)
  have hop1 : ∀ c ∈ (op ++ tail).take 1, isJsSpace c = false := by
    cases op with
    | nil => exact absurd rfl hop0
    | cons c0 op' =>
      intro c hc
      simp only [List.cons_append, List.take_succ_cons, List.take_zero,
        List.mem_singleton] at hc
      subst hc
      exact isJsSpace_of_wordChar (hop _ (by simp))
  rw [dropWhile_append_stop hsp2 hop1]
  have hne : ((op ++ tail).takeWhile isWordChar).isEmpty = false := by
    cases op with
    | nil => exact absurd rfl hop0
    | cons o op' => simp [List.takeWhile_cons, hop o (by simp)]
  rw [if_neg (by simp [hne])]

lemma scanColon_isSome (mid S : List Char)
    (hmid : ∀ c ∈ mid, isLineTerm c = false)
    (hS : ∃ r, matchTail S = some r) :
    ∃ r, scanColon (mid ++ ':' :: S) = some r := by
  induction mid with
  | nil =>
    obtain ⟨r, hr⟩ := hS
    refine ⟨r, ?_⟩
    rw [List.nil_append, scanColon, if_pos rfl]
    simp only [hr]
  | cons c mid' ih =>
    have hc := hmid c (by simp)
    obtain ⟨r, hr⟩ := ih (fun c hc => hmid c (by simp [hc]))
    by_cases hcol : c = ':'
    · subst hcol
      cases hm : matchTail (mid' ++ ':' :: S) with
      | some r2 =>
        refine ⟨r2, ?_⟩
        rw [List.cons_append, scanColon, if_pos rfl]
        simp only [hm]
      | none =>
        refine ⟨r, ?_⟩
        rw [List.cons_append, scanColon, if_pos rfl]
        simp only [hm]
        exact hr
    · refine ⟨r, ?_⟩
      rw [List.cons_append, scanColon, if_neg hcol]
      simp only [hc, Bool.false_eq_true, if_false]
      exact hr

lemma regexWebGL_isSome (pre rest : List Char)
    (h : ∃ r, scanColon rest = some r) :
    ∃ r, regexWebGL (pre ++ (webglChars ++ rest)) = some r := by
  induction pre with
  | nil =>
    obtain ⟨r, hr⟩ := h
    refine ⟨r, ?_⟩
    show regexWebGL ('W' :: ('e' :: 'b' :: 'G' :: 'L' :: rest)) = some r
    rw [regexWebGL, if_pos (show startsWithSeq webglChars
        ('W' :: ('e' :: 'b' :: 'G' :: 'L' :: rest)) = true
      from startsWithSeq_self_append webglChars rest)]
    simp only [List.drop_succ_cons, List.drop_zero, hr]
  | cons a pre' ih =>
    obtain ⟨r, hr⟩ := ih
    by_cases hs : startsWithSeq webglChars (a :: (pre' ++ (webglChars ++ rest))) = true
    · cases hm : scanColon ((a :: (pre' ++ (webglChars ++ rest))).drop 5) with
      | some r2 =>
        refine ⟨r2, ?_⟩
        show regexWebGL (a :: (pre' ++ (webglChars ++ rest))) = some r2
        rw [regexWebGL, if_pos hs]
        simp only [hm]
      | none =>
        refine ⟨r, ?_⟩
        show regexWebGL (a :: (pre' ++ (webglChars ++ rest))) = some r
        rw [regexWebGL, if_pos hs]
        simp only [hm]
        exact hr
    · refine ⟨r, ?_⟩
      show regexWebGL (a :: (pre' ++ (webglChars ++ rest))) = some r
      rw [regexWebGL, if_neg hs]
      exact hr

lemma matchTail_some_elim {l code op : List Char}
    (h : matchTail l = some (code, op)) :
    code ≠ [] ∧ (∀ c ∈ code, isUpperScore c = true) ∧
    op ≠ [] ∧ (∀ c ∈ op, isWordChar c = true) ∧
    ∃ sp1 sp2 tail, l = sp1 ++ (code ++ ':' :: (sp2 ++ (op ++ tail))) ∧
      (∀ c ∈ sp1, isJsSpace c = true) ∧ (∀ c ∈ sp2, isJsSpace c = true) := by
  simp only [matchTail] at h
  by_cases h1 : (List.takeWhile isUpperScore (List.dropWhile isJsSpace l)).isEmpty = true
  · rw [if_pos h1] at h
    exact absurd h (by simp)
  · rw [if_neg h1] at h
    split at h
    · rename_i r2 heq
      by_cases h2 : (List.takeWhile isWordChar (List.dropWhile isJsSpace r2)).isEmpty = true
      · rw [if_pos h2] at h
        exact absurd h (by simp)
      · rw [if_neg h2] at h
        rw [Option.some.injEq, Prod.mk.injEq] at h
        obtain ⟨hcodeEq, hopEq⟩ := h
        subst hcodeEq
        subst hopEq
        refine ⟨fun hnil => h1 (by rw [hnil]; rfl),
          fun c hc => List.mem_takeWhile_imp hc,
          fun hnil => h2 (by rw [hnil]; rfl),
          fun c hc => List.mem_takeWhile_imp hc,
          List.takeWhile isJsSpace l, List.takeWhile isJsSpace r2,
          List.dropWhile isWordChar (List.dropWhile isJsSpace r2), ?_,
          fun c hc => List.mem_takeWhile_imp hc,
          fun c hc => List.mem_takeWhile_imp hc⟩
        rw [List.takeWhile_append_dropWhile isWordChar (List.dropWhile isJsSpace r2),
          List.takeWhile_append_dropWhile isJsSpace r2, ← heq,
          List.takeWhile_append_dropWhile isUpperScore (List.dropWhile isJsSpace l),
          List.takeWhile_append_dropWhile isJsSpace l]
    · exact absurd h (by simp)

lemma scanColon_some_elim : ∀ {l : List Char} {r : List Char × List Char},
    scanColon l = some r →
    ∃ mid rest, l = mid ++ ':' :: rest ∧ (∀ c ∈ mid, isLineTerm c = false) ∧
      matchTail rest = some r := by
  intro l
  induction l with
  | nil => intro r h; exact absurd h (by simp [scanColon])
  | cons c rest' ih =>
    intro r h
    rw [scanColon] at h
    by_cases hc : c = ':'
    · subst hc
      rw [if_pos rfl] at h
      cases hm : matchTail rest' with
      | some r2 =>
        simp only [hm, Option.some.injEq] at h
        subst h
        exact ⟨[], rest', rfl, by simp, hm⟩
      | none =>
        simp only [hm] at h
        obtain ⟨mid', rest, hleq, hmid, hmt⟩ := ih h
        refine ⟨':' :: mid', rest, by rw [hleq, List.cons_append], ?_, hmt⟩
        intro c hc
        rcases List.mem_cons.mp hc with rfl | hc2
        · decide
        · exact hmid c hc2
    · rw [if_neg hc] at h
      by_cases hl : isLineTerm c = true
      · rw [if_pos hl] at h
        exact absurd h (by simp)
      · rw [if_neg hl] at h
        obtain ⟨mid', rest, hleq, hmid, hmt⟩ := ih h
        refine ⟨c :: mid', rest, by rw [hleq, List.cons_append], ?_, hmt⟩
        intro c2 hc2
        rcases List.mem_cons.mp hc2 with rfl | hc3
        · simpa using hl
        · exact hmid c2 hc3

lemma startsWithSeq_decomp : ∀ {pat l : List Char}, startsWithSeq pat l = true →
    l = pat ++ l.drop pat.length := by
  intro pat
  induction pat with
  | nil => intro l _; simp
  | cons p ps ih =>
    intro l h
    cases l with
    | nil => exact absurd h (by simp [startsWithSeq])
    | cons c cs =>
      rw [startsWithSeq, Bool.and_eq_true, beq_iff_eq] at h
      obtain ⟨hpc, h2⟩ := h
      subst hpc
      simp only [List.length_cons, List.drop_succ_cons, List.cons_append, List.cons.injEq,
        true_and]
      exact ih h2

lemma regexWebGL_some_elim : ∀ {l : List Char} {r : List Char × List Char},
    regexWebGL l = some r →
    ∃ pre rest, l = pre ++ (webglChars ++ rest) ∧ scanColon rest = some r := by
  intro l
  induction l with
  | nil => intro r h; exact absurd h (by simp [regexWebGL])
  | cons c rest' ih =>
    intro r h
    rw [regexWebGL] at h
    by_cases hs : startsWithSeq webglChars (c :: rest') = true
    · rw [if_pos hs] at h
      cases hm : scanColon ((c :: rest').drop 5) with
      | some r2 =>
        simp only [hm, Option.some.injEq] at h
        subst h
        refine ⟨[], (c :: rest').drop 5, ?_, hm⟩
        rw [List.nil_append]
        exact startsWithSeq_decomp hs
      | none =>
        simp only [hm] at h
        obtain ⟨pre', rest, hleq, hsc⟩ := ih h
        exact ⟨c :: pre', rest, by rw [List.cons_append, ← hleq], hsc⟩
    · rw [if_neg hs] at h
      obtain ⟨pre', rest, hleq, hsc⟩ := ih h
      exact ⟨c :: pre', rest, by rw [List.cons_append, ← hleq], hsc⟩

/-- C6 (amended): the structured signature is produced exactly when the
message contains a `WebGL`-anchored `CODE: operation` pattern, where the
anchor's reach respects the regex's lazy backtracking (text between `WebGL`
and the matched colon may contain further colons, but no line terminator):
(1) whenever the matcher returns captures `(code, op)`, the signature is
`webgl:code:op`, `code` is a nonempty run of `[A-Z_]`, `op` a nonempty run of
word characters, and the message decomposes as
`pre ++ "WebGL" ++ mid ++ ":" ++ spaces ++ code ++ ":" ++ spaces ++ op ++ tail`
with `mid` free of line terminators; (2) conversely every message of that
shape — `mid` may contain colons whose tails fail — makes the matcher return
structured captures; (3) when the matcher returns nothing, the signature
falls back to the first maximal `[A-Z_]` run in the message; (4) and to
`UNKNOWN` when the message has no `[A-Z_]` character. -/
theorem C6_amended :
    (∀ (l code op : List Char) (n : Nat),
      regexWebGL l = some (code, op) →
      getErrorKey (.runtime (String.mk l) n)
          = "webgl:" ++ (String.mk code ++ ":" ++ String.mk op) ∧
        code ≠ [] ∧ (∀ c ∈ code, isUpperScore c = true) ∧
        op ≠ [] ∧ (∀ c ∈ op, isWordChar c = true) ∧
        ∃ pre mid sp1 sp2 tail,
          l = pre ++ (webglChars ++
            (mid ++ ':' :: (sp1 ++ (code ++ ':' :: (sp2 ++ (op ++ tail)))))) ∧
          (∀ c ∈ mid, isLineTerm c = false) ∧
          (∀ c ∈ sp1, isJsSpace c = true) ∧ (∀ c ∈ sp2, isJsSpace c = true)) ∧
    (∀ pre mid sp1 code sp2 op tail : List Char,
      (∀ c ∈ mid, isLineTerm c = false) →
      (∀ c ∈ sp1, isJsSpace c = true) →
      code ≠ [] → (∀ c ∈ code, isUpperScore c = true) →
      (∀ c ∈ sp2, isJsSpace c = true) →
      op ≠ [] → (∀ c ∈ op, isWordChar c = true) →
      ∃ code2 op2, regexWebGL (pre ++ (webglChars ++
          (mid ++ ':' :: (sp1 ++ (code ++ ':' :: (sp2 ++ (op ++ tail)))))))
        = some (code2, op2)) ∧
    (∀ (pre run post : List Char) (n : Nat),
      regexWebGL (pre ++ (run ++ post)) = none →
      (∀ c ∈ pre, isUpperScore c = false) →
      run ≠ [] → (∀ c ∈ run, isUpperScore c = true) →
      (∀ c ∈ post.take 1, isUpperScore c = false) →
      getErrorKey (.runtime (String.mk (pre ++ (run ++ post))) n)
        = "webgl:" ++ String.mk run) ∧
    (∀ (l : List Char) (n : Nat), (∀ c ∈ l, isUpperScore c = false) →
      getErrorKey (.runtime (String.mk l) n) = "webgl:UNKNOWN") := by
  refine ⟨?_, ?_, ?_, ?_⟩
  · intro l code op n h
    constructor
    · show "webgl:" ++ extractErrorType _ = _
      unfold extractErrorType
      rw [show (String.mk l).data = l from rfl, h]
    · obtain ⟨pre, rest, hleq, hsc⟩ := regexWebGL_some_elim h
      obtain ⟨mid, rest2, hr2, hmid, hmt⟩ := scanColon_some_elim hsc
      obtain ⟨hc0, hcu, ho0, how, sp1, sp2, tail, hr3, hsp1, hsp2⟩ := matchTail_some_elim hmt
      exact ⟨hc0, hcu, ho0, how, pre, mid, sp1, sp2, tail,
        by rw [hleq, hr2, hr3], hmid, hsp1, hsp2⟩
  · intro pre mid sp1 code sp2 op tail hmid hsp1 hcode0 hcode hsp2 hop0 hop
    obtain ⟨⟨c2, o2⟩, hr⟩ := regexWebGL_isSome pre
      (mid ++ ':' :: (sp1 ++ (code ++ ':' :: (sp2 ++ (op ++ tail)))))
      (scanColon_isSome mid (sp1 ++ (code ++ ':' :: (sp2 ++ (op ++ tail)))) hmid
        ⟨(code, (op ++ tail).takeWhile isWordChar),
         matchTail_structured' sp1 code sp2 op tail hsp1 hcode0 hcode hsp2 hop0 hop⟩)
    exact ⟨c2, o2, hr⟩
  · intro pre run post n hnone hpre hrun0 hrun hpost
    show "webgl:" ++ extractErrorType _ = _
    unfold extractErrorType
    rw [show (String.mk (pre ++ (run ++ post))).data = pre ++ (run ++ post) from rfl, hnone,
      firstCapsRun_structured pre run post hpre hrun0 hrun hpost]
  · intro l n h
    show "webgl:" ++ extractErrorType _ = _
    unfold extractErrorType
    rw [show (String.mk l).data = l from rfl,
      regexWebGL_of_not_contains _ (containsSeq_webgl_of_no_upper h),
      firstCapsRun_none h]
    rfl

/-- Witness for C6 (amended): part (1) and part (2) at Chrome-style
`WebGL: foo: INVALID_OPERATION: drawElements` (whose structured key needs the
backtracking past the failed first colon), part (3) at
`WebGL broke INVALID_VALUE here` (contains `WebGL` but admits no match; the
leftmost `[A-Z_]` run is `W`), part (4) at `abc.`. -/
theorem C6_amended_witness :
    (getErrorKey (.runtime (String.mk "WebGL: foo: INVALID_OPERATION: drawElements".data) 1)
        = "webgl:" ++ (String.mk "INVALID_OPERATION".data ++ ":" ++ String.mk "drawElements".data) ∧
      "INVALID_OPERATION".data ≠ [] ∧
      (∀ c ∈ "INVALID_OPERATION".data, isUpperScore c = true) ∧
      "drawElements".data ≠ [] ∧
      (∀ c ∈ "drawElements".data, isWordChar c = true) ∧
      ∃ pre mid sp1 sp2 tail,
        "WebGL: foo: INVALID_OPERATION: drawElements".data = pre ++ (webglChars ++
          (mid ++ ':' :: (sp1 ++ ("INVALID_OPERATION".data ++ ':' ::
            (sp2 ++ ("drawElements".data ++ tail)))))) ∧
        (∀ c ∈ mid, isLineTerm c = false) ∧
        (∀ c ∈ sp1, isJsSpace c = true) ∧ (∀ c ∈ sp2, isJsSpace c = true)) ∧
    (∃ code2 op2, regexWebGL ([] ++ (webglChars ++
        (": foo".data ++ ':' :: ([' '] ++ ("INVALID_OPERATION".data ++ ':' ::
          ([' '] ++ ("drawElements".data ++ [])))))))
      = some (code2, op2)) ∧
    (getErrorKey (.runtime (String.mk ([] ++ (['W'] ++ "ebGL broke INVALID_VALUE here".data))) 1)
      = "webgl:" ++ String.mk ['W']) ∧
    (getErrorKey (.runtime (String.mk "abc.".data) 1) = "webgl:UNKNOWN") :=
  ⟨C6_amended.1 "WebGL: foo: INVALID_OPERATION: drawElements".data
    "INVALID_OPERATION".data "drawElements".data 1 (by decide),
   C6_amended.2.1 [] ": foo".data [' '] "INVALID_OPERATION".data [' ']
    "drawElements".data [] (by decide) (by decide) (by decide) (by decide)
    (by decide) (by decide) (by decide),
   C6_amended.2.2.1 [] ['W'] "ebGL broke INVALID_VALUE here".data 1
    (by decide) (by decide) (by decide) (by decide) (by decide),
   C6_amended.2.2.2 "abc.".data 1 (by decide)⟩
